import Mathlib

/-!
The daggerverse repository: the k3s module and the utils module.

A shallow embedding of `k3s/main.go`, `utils/cachebuster.go` and
`utils/containerversion.go`.

The dagger client API is lazy: every call on a container handle records one more
operation and returns a new handle.  A container is therefore embedded as the list of
operations recorded so far, oldest first.  Go `int` values are `Int`; the calendar
fields returned by `time.Time` accessors other than `Year` are never negative and are
`Nat`.
-/

set_option linter.dupNamespace false

namespace Daggerverse

/-! ## The dagger client API (external): handles as operation logs -/

/-- A named cache volume, `dag.CacheVolume(key)`. -/
structure CacheVolume where
  key : String
  deriving DecidableEq, Repr

mutual
/-- A file handle: a path inside a container, or a file of the module source. -/
inductive File where
  | ofContainer (ctr : List Step) (path : String)
  | ofModuleSource (path : String)
/-- One recorded operation of a container handle. -/
inductive Step where
  | From (address : String)
  | WithEnvVariable (name value : String)
  | WithMountedCache (path : String) (cache : CacheVolume)
  | WithMountedTemp (path : String)
  | WithExposedPort (port : Int)
  | WithExec (args : List String) (insecureRootCapabilities : Bool)
  | WithFile (path : String) (source : File) (permissions : Nat)
  | WithEntrypoint (args : List String)
  | WithoutEntrypoint
  | WithUser (name : String)
end

/-- The handle type `*dagger.Container` (non-nil). -/
abbrev Container := List Step

/-- The handle type `*dagger.Service`. -/
structure Service where
  ctr : Container

/-- The empty container `dag.Container()`. -/
def dagContainer : Container := []

namespace Container

def From (ctr : Container) (address : String) : Container :=
  ctr ++ [Step.From address]

def WithEnvVariable (ctr : Container) (name value : String) : Container :=
  ctr ++ [Step.WithEnvVariable name value]

def WithMountedCache (ctr : Container) (path : String) (cache : CacheVolume) : Container :=
  ctr ++ [Step.WithMountedCache path cache]

def WithMountedTemp (ctr : Container) (path : String) : Container :=
  ctr ++ [Step.WithMountedTemp path]

def WithExposedPort (ctr : Container) (port : Int) : Container :=
  ctr ++ [Step.WithExposedPort port]

def WithExec (ctr : Container) (args : List String)
    (insecureRootCapabilities : Bool) : Container :=
  ctr ++ [Step.WithExec args insecureRootCapabilities]

def WithFile (ctr : Container) (path : String) (source : File) (permissions : Nat) :
    Container :=
  ctr ++ [Step.WithFile path source permissions]

def WithEntrypoint (ctr : Container) (args : List String) : Container :=
  ctr ++ [Step.WithEntrypoint args]

def WithoutEntrypoint (ctr : Container) : Container :=
  ctr ++ [Step.WithoutEntrypoint]

def WithUser (ctr : Container) (name : String) : Container :=
  ctr ++ [Step.WithUser name]

/-- The call `ctr.With(f)`. -/
def With (ctr : Container) (f : Container → Container) : Container := f ctr

/-- The call `ctr.File(path)`. -/
def File (ctr : Container) (path : String) : Daggerverse.File :=
  Daggerverse.File.ofContainer ctr path

def AsService (ctr : Container) : Service := ⟨ctr⟩

/-- The value an operation gives the environment variable `name`, if it sets it. -/
def stepEnv (name : String) : Step → Option String
  | Step.WithEnvVariable n v => if n = name then some v else none
  | _ => none

/-- The value of environment variable `name` as set by the recorded operations: the
most recent `WithEnvVariable name _`, if any. -/
def envVariable (ctr : Container) (name : String) : Option String :=
  ctr.foldl (fun acc s => match stepEnv name s with | some v => some v | none => acc) none

/-- The `(name, value)` pairs of all recorded `WithEnvVariable` operations, in order. -/
def envSteps (ctr : Container) : List (String × String) :=
  ctr.filterMap fun s =>
    match s with
    | Step.WithEnvVariable n v => some (n, v)
    | _ => none

end Container

/-! ## Go standard library pieces used by the source -/

/-- The call `strings.Join(elems, sep)`. -/
def stringsJoin (elems : List String) (sep : String) : String :=
  sep.intercalate elems

/-- The verb `%d` of `fmt.Sprintf` on an `int` (also `strconv.Itoa`). -/
def fmtD (n : Int) : String := toString n

/-- A `time.Time` in UTC, seen through its accessors `Year`, `Month`, `Day`, `Hour`,
`Minute`, `Second` (`time.Month` is an integer type, January = 1). -/
structure Time where
  Year : Int
  Month : Nat
  Day : Nat
  Hour : Nat
  Minute : Nat
  Second : Nat
  deriving DecidableEq, Repr

namespace Time

/-- Gregorian leap years, as in Go. -/
def isLeap (year : Int) : Bool :=
  year % 4 == 0 && (year % 100 != 0 || year % 400 == 0)

/-- Number of days of a month. -/
def daysIn (year : Int) (month : Nat) : Nat :=
  if month = 2 then (if isLeap year then 29 else 28)
  else if month = 4 ∨ month = 6 ∨ month = 9 ∨ month = 11 then 30
  else 31

/-- The field combinations a `time.Time` can report. -/
def Valid (t : Time) : Prop :=
  1 ≤ t.Month ∧ t.Month ≤ 12 ∧ 1 ≤ t.Day ∧ t.Day ≤ daysIn t.Year t.Month ∧
    t.Hour < 24 ∧ t.Minute < 60 ∧ t.Second < 60

instance (t : Time) : Decidable t.Valid := by
  unfold Valid; exact inferInstance

/-- The instant one second later, `t.Add(time.Second)`, in calendar fields. -/
def addSecond (t : Time) : Time :=
  if t.Second + 1 < 60 then { t with Second := t.Second + 1 }
  else if t.Minute + 1 < 60 then { t with Minute := t.Minute + 1, Second := 0 }
  else if t.Hour + 1 < 24 then { t with Hour := t.Hour + 1, Minute := 0, Second := 0 }
  else if t.Day + 1 ≤ daysIn t.Year t.Month then
    { t with Day := t.Day + 1, Hour := 0, Minute := 0, Second := 0 }
  else if t.Month + 1 ≤ 12 then
    { t with Month := t.Month + 1, Day := 1, Hour := 0, Minute := 0, Second := 0 }
  else { Year := t.Year + 1, Month := 1, Day := 1, Hour := 0, Minute := 0, Second := 0 }

end Time

/-! ## utils/cachebuster.go -/

namespace Utils

/-- The local `cacheBursterKey` of `WithCacheBurster` when the `return` is reached
(lines 24 to 34). -/
def cacheBursterKey (utcNow : Time) (cacheBursterLevel : String) : String :=
  let cacheBursterKey := fmtD utcNow.Year ++ fmtD utcNow.Month ++ fmtD utcNow.Day
  if cacheBursterLevel = "daily" then cacheBursterKey
  else if cacheBursterLevel = "hour" then cacheBursterKey ++ fmtD utcNow.Hour
  else if cacheBursterLevel = "minute" then
    cacheBursterKey ++ (fmtD utcNow.Hour ++ fmtD utcNow.Minute)
  else cacheBursterKey ++ (fmtD utcNow.Hour ++ fmtD utcNow.Minute ++ fmtD utcNow.Second)

/-- The function `Utils.WithCacheBurster`; `utcNow` is the value of `time.Now().UTC()`. -/
def WithCacheBurster (utcNow : Time) (ctr : Container) (cacheBursterLevel : String) :
    Container :=
  if cacheBursterLevel = "none" then ctr
  else ctr.WithEnvVariable "CACHE_BURSTER" (cacheBursterKey utcNow cacheBursterLevel)

/-! ## utils/containerversion.go -/

/-- The function `Utils.WithContainerVersion`; a nil `container` is `none`. -/
def WithContainerVersion (ctr : Container) (version image : String)
    (container : Option Container) (defaultImageRepository : String) : Container :=
  if version ≠ "" then ctr.From (defaultImageRepository ++ ":" ++ version)
  else if image ≠ "" then ctr.From image
  else match container with
    | some c => c
    | none => ctr.From defaultImageRepository

end Utils

/-! ## k3s/main.go -/

/-- The constant `defaultImageRepository`. -/
def defaultImageRepository : String := "rancher/k3s"

/-- The constant `defaultImageRepositoryKubeconfig`. -/
def defaultImageRepositoryKubeconfig : String := "alpine"

/-- The constant `defaultImageRepositoryKubectl`. -/
def defaultImageRepositoryKubectl : String := "bitnami/kubectl"

/-- The struct `K3s`. -/
structure K3s where
  Ctr : Container
  ConfigCache : CacheVolume
  HttpListenPort : Int
  DisableServices : List String
  DisableHelmController : Bool
  DisableKubeProxy : Bool
  DisableNetworkPolicy : Bool
  DisableCloudController : Bool
  DisableScheduler : Bool

/-- The constructor `New`.  The six kubeconfig and kubectl parameters are accepted and
not stored, as in the source. -/
def New (name version image : String) (container : Option Container) (port : Int)
    (disableServices : List String)
    (disableHelmController disableKubeProxy disableNetworkPolicy disableCloudController
      disableScheduler : Bool)
    (versionKubeconfig imageKubeconfig : String) (containerKubeconfig : Option Container)
    (versionKubectl imageKubectl : String) (containerKubectl : Option Container) : K3s :=
  let _unused := (versionKubeconfig, imageKubeconfig, containerKubeconfig,
    versionKubectl, imageKubectl, containerKubectl)
  let ctr : Container :=
    if version ≠ "" then dagContainer.From (defaultImageRepository ++ ":" ++ version)
    else if image ≠ "" then dagContainer.From image
    else match container with
      | some c => c
      | none => dagContainer.From defaultImageRepository
  { ConfigCache := ⟨"k3s_config_" ++ name⟩
    Ctr := ctr
    HttpListenPort := port
    DisableServices := disableServices
    DisableHelmController := disableHelmController
    DisableKubeProxy := disableKubeProxy
    DisableNetworkPolicy := disableNetworkPolicy
    DisableCloudController := disableCloudController
    DisableScheduler := disableScheduler }

/-- Modelled from the spec: the method `WithCacheBurster()` that `Kubeconfig` and
`Kubectl` call on a container handle with no argument is not declared in the sources;
the spec describes it as a forced cache-buster, that is the utils cache-buster at its
default level (the empty string). -/
def Container.WithCacheBurster (utcNow : Time) (ctr : Container) : Container :=
  Utils.WithCacheBurster utcNow ctr ""

namespace K3s

/-- The method `Entrypoint`; `0o755 = 493`. -/
def Entrypoint (ctr : Container) : Container :=
  let file := File.ofModuleSource "hack/entrypoint.sh"
  (ctr.WithFile "/usr/bin/entrypoint.sh" file 493).WithEntrypoint ["entrypoint.sh"]

/-- The method `Container`. -/
def Container (m : K3s) : Daggerverse.Container :=
  ((((((m.Ctr.With Entrypoint).WithMountedCache "/etc/rancher/k3s" m.ConfigCache
    ).WithMountedTemp "/etc/lib/cni").WithMountedTemp "/var/lib/kubelet"
    ).WithMountedTemp "/var/lib/rancher/k3s").WithMountedTemp "/var/log"
    ).WithExposedPort m.HttpListenPort

/-- The slice `opts` of the method `K3s` when `strings.Join` is reached. -/
def opts (m : K3s) : List String :=
  let opts := ["k3s", "server"]
  let opts := opts ++ ["--https-listen-port", fmtD m.HttpListenPort]
  let opts := m.DisableServices.foldl (fun opts service => opts ++ ["--disable", service]) opts
  let opts := if m.DisableHelmController then opts ++ ["--disable-helm-controller"] else opts
  let opts := if m.DisableKubeProxy then opts ++ ["--disable-kube-proxy"] else opts
  let opts := if m.DisableNetworkPolicy then opts ++ ["--disable-network-policy"] else opts
  let opts := if m.DisableCloudController then opts ++ ["--disable-cloud-controller"] else opts
  let opts := if m.DisableScheduler then opts ++ ["--disable-scheduler"] else opts
  opts

/-- The shell command string `strings.Join(opts, " ")` of the method `K3s`. -/
def command (m : K3s) : String := stringsJoin m.opts " "

/-- The method `K3s`. -/
def K3s (m : Daggerverse.K3s) (ctr : Daggerverse.Container) : Daggerverse.Container :=
  ctr.WithExec ["sh", "-c", m.command] true

/-- The method `Service`. -/
def Service (m : Daggerverse.K3s) : Daggerverse.Service :=
  (m.Container.With m.K3s).AsService

/-- The method `WithContainer`. -/
def WithContainer (m : Daggerverse.K3s) (ctr : Daggerverse.Container) : Daggerverse.K3s :=
  { m with Ctr := ctr }

/-- The `sed` script of `Kubeconfig`, the Go raw string
`s/https:.*:/https:\/\/localhost:/g`. -/
def sedScript : String := "s/https:.*:/https:\\/\\/localhost:/g"

/-- The method `Kubeconfig`.  The identifiers `versionKubeconfig`, `imageKubeconfig`
and `containerKubeconfig` are free in the method body and are taken as parameters;
`utcNow` is the clock reading of the cache-buster. -/
def Kubeconfig (m : Daggerverse.K3s) (utcNow : Time)
    (versionKubeconfig imageKubeconfig : String) (containerKubeconfig : Option Daggerverse.Container)
    (local_ : Bool) : File :=
  let ctr : Daggerverse.Container :=
    if versionKubeconfig ≠ "" then
      dagContainer.From (defaultImageRepositoryKubeconfig ++ ":" ++ versionKubeconfig)
    else if imageKubeconfig ≠ "" then dagContainer.From imageKubeconfig
    else match containerKubeconfig with
      | some c => c
      | none => dagContainer.From defaultImageRepositoryKubeconfig
  (((((ctr.WithCacheBurster utcNow).WithMountedCache "/cache/k3s" m.ConfigCache
    ).WithExec ["cp", "/cache/k3s/k3s.yaml", "k3s.yaml"] false
    ).With fun ctr =>
      if !local_ then ctr
      else ctr.WithExec ["sed", "-i", sedScript, "k3s.yaml"] false
    ).File "k3s.yaml")

/-- The method `Kubectl`, up to the container whose standard output is requested. -/
def Kubectl (m : Daggerverse.K3s) (utcNow : Time)
    (versionKubeconfig imageKubeconfig : String) (containerKubeconfig : Option Daggerverse.Container)
    (args : String) : Daggerverse.Container :=
  ((((((dagContainer.From "bitnami/kubectl").WithoutEntrypoint
    ).WithMountedCache "/cache/k3s" m.ConfigCache
    ).WithCacheBurster utcNow
    ).WithFile "/.kube/config"
      (m.Kubeconfig utcNow versionKubeconfig imageKubeconfig containerKubeconfig false) 1001
    ).WithUser "1001"
    ).WithExec ["sh", "-c", "kubectl " ++ args] false

/-- The method `WithCacheBurster` of `K3s`. -/
def WithCacheBurster (m : Daggerverse.K3s) (utcNow : Time) (cacheBusterLevel : String) : Daggerverse.K3s :=
  m.WithContainer (Utils.WithCacheBurster utcNow m.Ctr cacheBusterLevel)

end K3s

/-! ## The programs run by `Kubeconfig` (external): `cp` and `sed` -/

/-- The part of a line after its last colon, if the line has a colon. -/
def afterLastColon : List Char → Option (List Char)
  | [] => none
  | c :: cs =>
    match afterLastColon cs with
    | some rest => some rest
    | none => if c = ':' then some cs else none

/-- Effect of the `sed` script `s/https:.*:/https:\/\/localhost:/g` on one line.  The
leftmost match of the regular expression `https:.*:` starts at the first `https:` of
the line and, `.*` being greedy, ends at the last colon of the line; the rest of the
line has no colon, so the `g` flag finds no further match.  When no colon follows the
first `https:`, nothing in the line matches and the line is kept. -/
def sedLine : List Char → List Char
  | [] => []
  | c :: cs =>
    if "https:".data.isPrefixOf (c :: cs) then
      match afterLastColon ((c :: cs).drop 6) with
      | some rest => "https://localhost:".data ++ rest
      | none => c :: cs
    else c :: sedLine cs

/-- The lines of a text: the pieces between newline characters. -/
def splitLines : List Char → List (List Char)
  | [] => [[]]
  | c :: cs =>
    if c = '\n' then [] :: splitLines cs
    else
      match splitLines cs with
      | [] => [[c]]
      | line :: lines => (c :: line) :: lines

/-- Effect of `sed -i` with the script of `Kubeconfig` on the content of a file: the
script is applied to every line. -/
def sedFile (content : String) : String :=
  String.mk (List.intercalate ['\n'] ((splitLines content.data).map sedLine))

/-- Whether the text `pat` occurs in `text`. -/
def occursIn (pat text : String) : Bool :=
  text.data.tails.any fun suffix => pat.data.isPrefixOf suffix

/-- The files seen by a container: content by path. -/
abbrev Files := String → Option String

namespace Files

def empty : Files := fun _ => none

/-- The files after `content` is written at `path`. -/
def write (fs : Files) (path content : String) : Files :=
  fun q => if q = path then some content else fs q

/-- The files after `volume` is mounted at directory `path`. -/
def mount (fs : Files) (path : String) (volume : Files) : Files :=
  fun q =>
    if (path ++ "/").data.isPrefixOf q.data then
      volume (String.mk (q.data.drop (path.length + 1)))
    else fs q

end Files

/-- What the container platform holds and does outside this repository: the files of
every image, of every cache volume and of the module source, and the effect on the files
of every command other than the `cp` and `sed` command lines of `Kubeconfig` (`none`
when the command fails). -/
structure World where
  images : String → Files
  volumes : CacheVolume → Files
  moduleSource : String → Option String
  exec : List String → Files → Option Files

/-- Effect of an execution on the files of the container: `cp <src> <dst>` copies a
file, `sed -i <script of Kubeconfig> <file>` rewrites one, both fail on a missing file;
every other command line is left to the platform. -/
def runExec (world : World) (fs : Files) : List String → Option Files
  | ["cp", src, dst] => (fs src).map fun content => fs.write dst content
  | ["sed", "-i", script, file] =>
    if script = K3s.sedScript then (fs file).map fun content => fs.write file (sedFile content)
    else world.exec ["sed", "-i", script, file] fs
  | args => world.exec args fs

mutual
/-- The content of a file handle. -/
def File.contents (world : World) : File → Option String
  | File.ofContainer ctr path => (runSteps world ctr Files.empty).bind fun fs => fs path
  | File.ofModuleSource path => world.moduleSource path
/-- Effect of one recorded operation on the files of the container. -/
def Step.run (world : World) : Step → Files → Option Files
  | Step.From address, _ => some (world.images address)
  | Step.WithMountedCache path cache, fs => some (fs.mount path (world.volumes cache))
  | Step.WithMountedTemp path, fs => some (fs.mount path Files.empty)
  | Step.WithExec args _, fs => runExec world fs args
  | Step.WithFile path source _, fs =>
    (File.contents world source).map fun content => fs.write path content
  | Step.WithEnvVariable _ _, fs => some fs
  | Step.WithExposedPort _, fs => some fs
  | Step.WithEntrypoint _, fs => some fs
  | Step.WithoutEntrypoint, fs => some fs
  | Step.WithUser _, fs => some fs
/-- Effect of recorded operations, oldest first, on the files of the container. -/
def runSteps (world : World) : List Step → Files → Option Files
  | [], fs => some fs
  | step :: rest, fs => (Step.run world step fs).bind fun fs₁ => runSteps world rest fs₁
end

/-- The files of a container after its recorded operations ran. -/
def Container.run (world : World) (ctr : Container) : Option Files :=
  runSteps world ctr Files.empty

/-! ## Vocabulary of the claims -/

/-- The per-second levels: every level string that is none of the four named ones. -/
def perSecond (level : String) : Prop :=
  level ≠ "none" ∧ level ≠ "daily" ∧ level ≠ "hour" ∧ level ≠ "minute"

instance (level : String) : Decidable (perSecond level) := by
  unfold perSecond; exact inferInstance

/-- The window of a time at a level, as the tuple of calendar fields that name it. -/
def window (level : String) (t : Time) : Int × Nat × Nat × Nat × Nat × Nat :=
  if level = "daily" then (t.Year, t.Month, t.Day, 0, 0, 0)
  else if level = "hour" then (t.Year, t.Month, t.Day, t.Hour, 0, 0)
  else if level = "minute" then (t.Year, t.Month, t.Day, t.Hour, t.Minute, 0)
  else (t.Year, t.Month, t.Day, t.Hour, t.Minute, t.Second)

/-- The token list of the claim: the four leading tokens, one pair per disabled service
in list order, then the flags that are set, in the fixed order. -/
def expectedTokens (p : Int) (services : List String)
    (helm kubeProxy networkPolicy cloudController scheduler : Bool) : List String :=
  ["k3s", "server", "--https-listen-port", toString p] ++
    (services.flatMap fun s => ["--disable", s]) ++
    (if helm then ["--disable-helm-controller"] else []) ++
    (if kubeProxy then ["--disable-kube-proxy"] else []) ++
    (if networkPolicy then ["--disable-network-policy"] else []) ++
    (if cloudController then ["--disable-cloud-controller"] else []) ++
    (if scheduler then ["--disable-scheduler"] else [])

/-! ## Cache-buster: lemmas -/

theorem fmtD_natCast (n : Nat) : fmtD (n : Int) = toString n := rfl

theorem fmtD_natCast_data (n : Nat) : (fmtD (n : Int)).data = Nat.toDigits 10 n := rfl

theorem toDigits_getLast_lt_sixty :
    ∀ s < 60, (Nat.toDigits 10 s).getLast? = some (Nat.digitChar (s % 10)) := by
  decide

theorem digitChar_succ_mod_ne :
    ∀ s < 60, Nat.digitChar (s % 10) ≠ Nat.digitChar ((s + 1) % 60 % 10) := by
  decide

theorem addSecond_Second (t : Time) : t.addSecond.Second = if t.Second + 1 < 60 then t.Second + 1 else 0 := by
  unfold Time.addSecond
  split_ifs <;> rfl

theorem cacheBursterKey_perSecond (t : Time) (level : String) (h : perSecond level) :
    Utils.cacheBursterKey t level =
      fmtD t.Year ++ fmtD t.Month ++ fmtD t.Day ++
        (fmtD t.Hour ++ fmtD t.Minute ++ fmtD t.Second) := by
  obtain ⟨_, hd, hh, hm⟩ := h
  simp [Utils.cacheBursterKey, hd, hh, hm]

theorem cacheBursterKey_perSecond_getLast (t : Time) (level : String) (h : perSecond level)
    (hs : t.Second < 60) :
    (Utils.cacheBursterKey t level).data.getLast? = some (Nat.digitChar (t.Second % 10)) := by
  have hne : Nat.toDigits 10 t.Second ≠ [] := by
    intro h0
    have := toDigits_getLast_lt_sixty t.Second hs
    rw [h0] at this
    simp at this
  rw [cacheBursterKey_perSecond t level h]
  simp only [String.data_append, fmtD_natCast_data, ← List.append_assoc]
  rw [List.getLast?_append_of_ne_nil _ hne]
  exact toDigits_getLast_lt_sixty t.Second hs

/-! ## Cache-buster: claims -/

/-- C3: for every level other than "none", `WithCacheBurster` appends exactly one
operation, which sets `CACHE_BURSTER` to the concatenation of the unpadded decimal
numerals of year, month, day for "daily", with the hour appended for "hour", with hour
and minute appended for "minute", and with hour, minute and second appended for every
other level (among them "" and "second"). -/
theorem C3_withCacheBurster_key (utcNow : Time) (ctr : Container) (level : String)
    (hnone : level ≠ "none") :
    ∃ key : String,
      Utils.WithCacheBurster utcNow ctr level = ctr ++ [Step.WithEnvVariable "CACHE_BURSTER" key] ∧
      (Utils.WithCacheBurster utcNow ctr level).envVariable "CACHE_BURSTER" = some key ∧
      (level = "daily" →
        key = toString utcNow.Year ++ toString utcNow.Month ++ toString utcNow.Day) ∧
      (level = "hour" →
        key = toString utcNow.Year ++ toString utcNow.Month ++ toString utcNow.Day ++
          toString utcNow.Hour) ∧
      (level = "minute" →
        key = toString utcNow.Year ++ toString utcNow.Month ++ toString utcNow.Day ++
          toString utcNow.Hour ++ toString utcNow.Minute) ∧
      (level ≠ "daily" → level ≠ "hour" → level ≠ "minute" →
        key = toString utcNow.Year ++ toString utcNow.Month ++ toString utcNow.Day ++
          toString utcNow.Hour ++ toString utcNow.Minute ++ toString utcNow.Second) := by
  refine ⟨Utils.cacheBursterKey utcNow level, ?_, ?_, ?_, ?_, ?_, ?_⟩
  · simp [Utils.WithCacheBurster, hnone, Container.WithEnvVariable]
  · simp [Utils.WithCacheBurster, hnone, Container.WithEnvVariable, Container.envVariable,
      Container.stepEnv]
  · rintro rfl
    simp only [Utils.cacheBursterKey, fmtD_natCast]
    simp [fmtD]
  · rintro rfl
    simp only [Utils.cacheBursterKey, fmtD_natCast]
    simp [fmtD]
  · rintro rfl
    simp only [Utils.cacheBursterKey, fmtD_natCast]
    simp [fmtD, String.append_assoc]
  · intro hd hh hm
    simp only [Utils.cacheBursterKey, fmtD_natCast, hd, hh, hm]
    simp [fmtD, String.append_assoc]

/-- Witness of C3 at 2025-03-04 05:06:07 UTC, level "second", on the empty container. -/
theorem C3_withCacheBurster_key_witness :
    ∃ key : String,
      Utils.WithCacheBurster ⟨2025, 3, 4, 5, 6, 7⟩ [] "second" =
        [] ++ [Step.WithEnvVariable "CACHE_BURSTER" key] ∧
      (Utils.WithCacheBurster ⟨2025, 3, 4, 5, 6, 7⟩ [] "second").envVariable "CACHE_BURSTER" =
        some key ∧
      key = "202534567" := by
  obtain ⟨key, h1, h2, _, _, _, h6⟩ :=
    C3_withCacheBurster_key ⟨2025, 3, 4, 5, 6, 7⟩ [] "second" (by decide)
  exact ⟨key, h1, h2, (h6 (by decide) (by decide) (by decide)).trans (by decide)⟩

/-- C4: for every level other than "none", two times in the same window of that level
(same day for "daily", same day and hour for "hour", same day, hour and minute for
"minute", same second otherwise) get equal cache-buster keys; in particular two times
of one calendar day get equal "daily" keys whatever their hours, minutes and seconds. -/
theorem C4_same_window_same_key :
    (∀ (level : String) (t₁ t₂ : Time), level ≠ "none" → window level t₁ = window level t₂ →
      Utils.cacheBursterKey t₁ level = Utils.cacheBursterKey t₂ level) ∧
    (∀ (y : Int) (mo d h₁ mi₁ s₁ h₂ mi₂ s₂ : Nat),
      Utils.cacheBursterKey ⟨y, mo, d, h₁, mi₁, s₁⟩ "daily" =
        Utils.cacheBursterKey ⟨y, mo, d, h₂, mi₂, s₂⟩ "daily") := by
  constructor
  · intro level t₁ t₂ _ hw
    unfold window at hw
    unfold Utils.cacheBursterKey
    split_ifs at hw ⊢ <;> simp only [Prod.mk.injEq] at hw <;> simp [hw]
  · intro y mo d h₁ mi₁ s₁ h₂ mi₂ s₂
    simp [Utils.cacheBursterKey]

/-- Witness of C4: 2025-03-04 05:06:07 and 2025-03-04 05:06:59 at level "minute". -/
theorem C4_same_window_same_key_witness :
    Utils.cacheBursterKey ⟨2025, 3, 4, 5, 6, 7⟩ "minute" =
      Utils.cacheBursterKey ⟨2025, 3, 4, 5, 6, 59⟩ "minute" :=
  C4_same_window_same_key.1 "minute" ⟨2025, 3, 4, 5, 6, 7⟩ ⟨2025, 3, 4, 5, 6, 59⟩
    (by decide) (by decide)

/-- C6: for every valid time and the time one second later, roll-overs included, the
keys of every per-second level (among them "" and "second") differ: they end in
different digits. -/
theorem C6_one_second_apart_keys_differ (t : Time) (level : String) (hv : t.Valid)
    (hl : perSecond level) :
    Utils.cacheBursterKey t level ≠ Utils.cacheBursterKey t.addSecond level := by
  have hs : t.Second < 60 := hv.2.2.2.2.2.2
  have hs2 : t.addSecond.Second = (t.Second + 1) % 60 := by
    rw [addSecond_Second]
    split_ifs <;> omega
  have hs3 : t.addSecond.Second < 60 := by rw [hs2]; omega
  intro heq
  have h1 := cacheBursterKey_perSecond_getLast t level hl hs
  have h2 := cacheBursterKey_perSecond_getLast t.addSecond level hl hs3
  rw [heq, h2, hs2] at h1
  exact digitChar_succ_mod_ne t.Second hs (Option.some.inj h1).symm

/-- Witness of C6 at the year roll-over 2024-12-31 23:59:59. -/
theorem C6_one_second_apart_keys_differ_witness :
    (⟨2024, 12, 31, 23, 59, 59⟩ : Time).Valid ∧ perSecond "" ∧
      (⟨2024, 12, 31, 23, 59, 59⟩ : Time).addSecond = ⟨2025, 1, 1, 0, 0, 0⟩ ∧
      Utils.cacheBursterKey ⟨2024, 12, 31, 23, 59, 59⟩ "" ≠
        Utils.cacheBursterKey (⟨2024, 12, 31, 23, 59, 59⟩ : Time).addSecond "" :=
  ⟨by decide, by decide, by decide,
    C6_one_second_apart_keys_differ ⟨2024, 12, 31, 23, 59, 59⟩ "" (by decide) (by decide)⟩

/-- C7: with level "none", `WithCacheBurster` returns the given container itself: no
operation is recorded, so every environment variable, `CACHE_BURSTER` among them, is
as before the call. -/
theorem C7_withCacheBurster_none (utcNow : Time) (ctr : Container) :
    Utils.WithCacheBurster utcNow ctr "none" = ctr ∧
    (∀ name : String,
      (Utils.WithCacheBurster utcNow ctr "none").envVariable name = ctr.envVariable name) ∧
    (Utils.WithCacheBurster utcNow ctr "none").envSteps = ctr.envSteps ∧
    (Utils.WithCacheBurster utcNow dagContainer "none").envVariable "CACHE_BURSTER" = none := by
  simp [Utils.WithCacheBurster, dagContainer, Container.envVariable]

/-- C10, as stated, fails: the "daily" keys of 2 January 2025 and 20 January 2025 are
different texts. -/
theorem C10_jan2_jan20_keys_differ :
    ¬ (Utils.cacheBursterKey ⟨2025, 1, 2, 0, 0, 0⟩ "daily" =
        Utils.cacheBursterKey ⟨2025, 1, 20, 0, 0, 0⟩ "daily") := by
  decide

/-- C10, amended: whatever the time of day, the "daily" key of 2 January 2025 is
"202512" and the "daily" key of 20 January 2025 is "2025120" (month and day are
concatenated without zero-padding), and the two keys are different texts. -/
theorem C10_daily_keys_jan2_jan20 (h₁ mi₁ s₁ h₂ mi₂ s₂ : Nat) :
    Utils.cacheBursterKey ⟨2025, 1, 2, h₁, mi₁, s₁⟩ "daily" = "202512" ∧
    Utils.cacheBursterKey ⟨2025, 1, 20, h₂, mi₂, s₂⟩ "daily" = "2025120" ∧
    Utils.cacheBursterKey ⟨2025, 1, 2, h₁, mi₁, s₁⟩ "daily" ≠
      Utils.cacheBursterKey ⟨2025, 1, 20, h₂, mi₂, s₂⟩ "daily" := by
  have e₁ : Utils.cacheBursterKey ⟨2025, 1, 2, h₁, mi₁, s₁⟩ "daily" = "202512" := by
    simp only [Utils.cacheBursterKey, if_true]; decide
  have e₂ : Utils.cacheBursterKey ⟨2025, 1, 20, h₂, mi₂, s₂⟩ "daily" = "2025120" := by
    simp only [Utils.cacheBursterKey, if_true]; decide
  refine ⟨e₁, e₂, ?_⟩
  rw [e₁, e₂]
  decide

/-- C5, the code at the failing inputs: 12 January 2025 and 2 November 2025 are valid
times on different days with the same "daily" key "2025112"; 01:01:11 and 11:01:01 of
4 March 2025 are valid times in different seconds with the same key "2025341111" at the
per-second levels "" and "second". -/
theorem C5_keys_collide_across_windows :
    (⟨2025, 1, 12, 0, 0, 0⟩ : Time).Valid ∧ (⟨2025, 11, 2, 0, 0, 0⟩ : Time).Valid ∧
    window "daily" ⟨2025, 1, 12, 0, 0, 0⟩ ≠ window "daily" ⟨2025, 11, 2, 0, 0, 0⟩ ∧
    Utils.cacheBursterKey ⟨2025, 1, 12, 0, 0, 0⟩ "daily" = "2025112" ∧
    Utils.cacheBursterKey ⟨2025, 11, 2, 0, 0, 0⟩ "daily" = "2025112" ∧
    (⟨2025, 3, 4, 1, 1, 11⟩ : Time).Valid ∧ (⟨2025, 3, 4, 11, 1, 1⟩ : Time).Valid ∧
    window "" ⟨2025, 3, 4, 1, 1, 11⟩ ≠ window "" ⟨2025, 3, 4, 11, 1, 1⟩ ∧
    Utils.cacheBursterKey ⟨2025, 3, 4, 1, 1, 11⟩ "" = "2025341111" ∧
    Utils.cacheBursterKey ⟨2025, 3, 4, 11, 1, 1⟩ "" = "2025341111" ∧
    Utils.cacheBursterKey ⟨2025, 3, 4, 1, 1, 11⟩ "second" =
      Utils.cacheBursterKey ⟨2025, 3, 4, 11, 1, 1⟩ "second" := by
  decide

/-! ## K3s command line -/

theorem foldl_disable (services : List String) (acc : List String) :
    services.foldl (fun opts service => opts ++ ["--disable", service]) acc =
      acc ++ services.flatMap fun s => ["--disable", s] := by
  induction services generalizing acc with
  | nil => simp
  | cons s rest ih => simp [ih]

theorem digitChar_ne_minus (k : Nat) : Nat.digitChar k ≠ '-' := by
  have small : ∀ j < 16, Nat.digitChar j ≠ '-' := by decide
  by_cases hk : k < 16
  · exact small k hk
  · have hstar : Nat.digitChar k = '*' := by
      rw [Nat.digitChar]
      repeat rw [if_neg (by omega)]
    rw [hstar]
    decide

theorem minus_not_mem_toDigitsCore (fuel n : Nat) (ds : List Char) (h : '-' ∉ ds) :
    '-' ∉ Nat.toDigitsCore 10 fuel n ds := by
  induction fuel generalizing n ds with
  | zero => simpa [Nat.toDigitsCore] using h
  | succ fuel ih =>
    have hd : '-' ∉ Nat.digitChar (n % 10) :: ds := by
      simp only [List.mem_cons, not_or]
      exact ⟨fun e => digitChar_ne_minus _ e.symm, h⟩
    simp only [Nat.toDigitsCore]
    split_ifs
    · exact hd
    · exact ih _ _ hd

theorem fmtD_ne_disable (p : Int) : fmtD p ≠ "--disable" := by
  intro h
  have hdata := congrArg String.data h
  cases p with
  | ofNat n =>
    have hm : '-' ∈ Nat.toDigits 10 n := by
      have : (fmtD (Int.ofNat n)).data = Nat.toDigits 10 n := rfl
      rw [← this, hdata]
      decide
    exact minus_not_mem_toDigitsCore _ _ _ (by simp) hm
  | negSucc n =>
    have hm : '-' ∈ Nat.toDigits 10 (n + 1) := by
      have : (fmtD (Int.negSucc n)).data = '-' :: Nat.toDigits 10 (n + 1) := rfl
      rw [this] at hdata
      have ht : Nat.toDigits 10 (n + 1) = "-disable".data := List.tail_eq_of_cons_eq hdata
      rw [ht]
      decide
    exact minus_not_mem_toDigitsCore _ _ _ (by simp) hm

theorem opts_eq_expectedTokens (m : K3s) :
    m.opts = expectedTokens m.HttpListenPort m.DisableServices m.DisableHelmController
      m.DisableKubeProxy m.DisableNetworkPolicy m.DisableCloudController
      m.DisableScheduler := by
  simp only [K3s.opts, expectedTokens, foldl_disable, fmtD]
  cases m.DisableHelmController <;> cases m.DisableKubeProxy <;>
    cases m.DisableNetworkPolicy <;> cases m.DisableCloudController <;>
    cases m.DisableScheduler <;> simp

/-- C1: for every configuration the method `K3s` records one execution of
`sh -c <command>` with root capabilities, where `<command>` is the single-space join of
`k3s server --https-listen-port <port>`, one pair `--disable <s>` per disabled service
in list order, and then those of the five flags that are set, in the fixed order; with
the services traefik and metrics-server, port 6443 and no flag set the command is
`k3s server --https-listen-port 6443 --disable traefik --disable metrics-server`; and
with no disabled service no token is `--disable`. -/
theorem C1_k3s_command :
    (∀ (m : K3s) (ctr : Container),
      m.opts = expectedTokens m.HttpListenPort m.DisableServices m.DisableHelmController
        m.DisableKubeProxy m.DisableNetworkPolicy m.DisableCloudController
        m.DisableScheduler ∧
      m.command = " ".intercalate m.opts ∧
      m.K3s ctr = ctr ++ [Step.WithExec ["sh", "-c", m.command] true]) ∧
    (∀ (name version image : String) (container : Option Container)
        (vKc iKc : String) (cKc : Option Container) (vKl iKl : String)
        (cKl : Option Container),
      (New name version image container 6443 ["traefik", "metrics-server"]
          false false false false false vKc iKc cKc vKl iKl cKl).command =
        "k3s server --https-listen-port 6443 --disable traefik --disable metrics-server") ∧
    (∀ m : K3s, m.DisableServices = [] → "--disable" ∉ m.opts) := by
  refine ⟨fun m ctr => ⟨opts_eq_expectedTokens m, rfl, rfl⟩, ?_, ?_⟩
  · intro name version image container vKc iKc cKc vKl iKl cKl
    have hcmd : (New name version image container 6443 ["traefik", "metrics-server"]
          false false false false false vKc iKc cKc vKl iKl cKl).command =
        (New "" "" "" none 6443 ["traefik", "metrics-server"]
          false false false false false "" "" none "" "" none).command := rfl
    rw [hcmd]
    decide
  · intro m hL
    rw [opts_eq_expectedTokens, hL]
    have hp : ¬ "--disable" = toString m.HttpListenPort := fun e => fmtD_ne_disable _ e.symm
    simp only [expectedTokens]
    cases m.DisableHelmController <;> cases m.DisableKubeProxy <;>
      cases m.DisableNetworkPolicy <;> cases m.DisableCloudController <;>
      cases m.DisableScheduler <;> simp [hp]

/-- Witness of C1: a configuration with no disabled service, port 8443 and the
kube-proxy and scheduler flags set. -/
theorem C1_k3s_command_witness :
    "--disable" ∉ (New "default" "" "" none 8443 [] false true false false true
        "" "" none "" "" none).opts ∧
      (New "default" "" "" none 8443 [] false true false false true
        "" "" none "" "" none).command =
        "k3s server --https-listen-port 8443 --disable-kube-proxy --disable-scheduler" :=
  ⟨C1_k3s_command.2.2 _ rfl, by decide⟩



/-! ## Image selection -/

theorem new_Ctr (name version image : String) (container : Option Container) (port : Int)
    (services : List String) (f₁ f₂ f₃ f₄ f₅ : Bool) (vKc iKc : String)
    (cKc : Option Container) (vKl iKl : String) (cKl : Option Container) :
    (New name version image container port services f₁ f₂ f₃ f₄ f₅ vKc iKc cKc vKl iKl cKl).Ctr =
      Utils.WithContainerVersion dagContainer version image container defaultImageRepository :=
  rfl

/-- The operations `Kubeconfig` records after the base container is resolved. -/
theorem kubeconfig_steps (m : K3s) (utcNow : Time) (vKc iKc : String)
    (cKc : Option Container) (local_ : Bool) :
    m.Kubeconfig utcNow vKc iKc cKc local_ =
      File.ofContainer
        (Utils.WithContainerVersion dagContainer vKc iKc cKc "alpine" ++
          ([Step.WithEnvVariable "CACHE_BURSTER" (Utils.cacheBursterKey utcNow ""),
            Step.WithMountedCache "/cache/k3s" m.ConfigCache,
            Step.WithExec ["cp", "/cache/k3s/k3s.yaml", "k3s.yaml"] false] ++
          (if local_ then [Step.WithExec ["sed", "-i", K3s.sedScript, "k3s.yaml"] false]
            else [])))
        "k3s.yaml" := by
  cases local_ <;>
    simp [K3s.Kubeconfig, Container.With, Container.File, Container.WithExec,
      Container.WithMountedCache, Container.WithCacheBurster, Utils.WithCacheBurster,
      Container.WithEnvVariable, Utils.WithContainerVersion,
      defaultImageRepositoryKubeconfig]

/-- C2: `WithContainerVersion` resolves by precedence.  A non-empty version gives the
pull of `<defaultRepository>:<version>` whatever image and container are; otherwise a
non-empty image gives the pull of that image whatever container is; otherwise a supplied
container handle is returned itself; otherwise the result is the pull of the default
repository with no tag.  The function is total: every combination has a result. -/
theorem C2_withContainerVersion_precedence (ctr : Container) (version image : String)
    (container : Option Container) (repo : String) :
    (version ≠ "" →
      Utils.WithContainerVersion ctr version image container repo =
        ctr.From (repo ++ ":" ++ version)) ∧
    (version = "" → image ≠ "" →
      Utils.WithContainerVersion ctr version image container repo = ctr.From image) ∧
    (version = "" → image = "" → ∀ c : Container, container = some c →
      Utils.WithContainerVersion ctr version image container repo = c) ∧
    (version = "" → image = "" → container = none →
      Utils.WithContainerVersion ctr version image container repo = ctr.From repo) := by
  refine ⟨?_, ?_, ?_, ?_⟩
  · intro hv
    simp [Utils.WithContainerVersion, hv]
  · intro hv hi
    simp [Utils.WithContainerVersion, hv, hi]
  · intro hv hi c hc
    simp [Utils.WithContainerVersion, hv, hi, hc]
  · intro hv hi hc
    simp [Utils.WithContainerVersion, hv, hi, hc]

/-- Witness of C2: one input per precedence level, each with every lower level set
where the level allows it. -/
theorem C2_withContainerVersion_precedence_witness :
    Utils.WithContainerVersion [] "v1.30" "me/img:2" (some [Step.WithUser "u"]) "alpine" =
        [Step.From "alpine:v1.30"] ∧
    Utils.WithContainerVersion [] "" "me/img:2" (some [Step.WithUser "u"]) "alpine" =
        [Step.From "me/img:2"] ∧
    Utils.WithContainerVersion [] "" "" (some [Step.WithUser "u"]) "alpine" =
        [Step.WithUser "u"] ∧
    Utils.WithContainerVersion [] "" "" none "alpine" = [Step.From "alpine"] :=
  ⟨(C2_withContainerVersion_precedence [] "v1.30" "me/img:2" (some [Step.WithUser "u"])
      "alpine").1 (by decide),
    (C2_withContainerVersion_precedence [] "" "me/img:2" (some [Step.WithUser "u"])
      "alpine").2.1 rfl (by decide),
    (C2_withContainerVersion_precedence [] "" "" (some [Step.WithUser "u"])
      "alpine").2.2.1 rfl rfl _ rfl,
    (C2_withContainerVersion_precedence [] "" "" none "alpine").2.2.2 rfl rfl rfl⟩

/-- C8, the code: the server container of `New` and the helper container of
`Kubeconfig` are resolved by the precedence of `WithContainerVersion` with the defaults
`rancher/k3s` and `alpine`; the container of `Kubectl` starts with the pull of
`bitnami/kubectl` whatever `versionKubectl`, `imageKubectl` and `containerKubectl` were
given to `New`: with `versionKubectl = "1.30"` it is not the pull of
`bitnami/kubectl:1.30`, and with `imageKubectl = "me/kubectl:dev"` it is not the pull of
that image. -/
theorem C8_kubectl_base_is_fixed :
    (∀ (name version image : String) (container : Option Container) (port : Int)
        (services : List String) (f₁ f₂ f₃ f₄ f₅ : Bool) (vKc iKc : String)
        (cKc : Option Container) (vKl iKl : String) (cKl : Option Container)
        (utcNow : Time) (local_ : Bool) (args : String),
      (New name version image container port services f₁ f₂ f₃ f₄ f₅
          vKc iKc cKc vKl iKl cKl).Ctr =
        Utils.WithContainerVersion dagContainer version image container "rancher/k3s" ∧
      (∃ rest : List Step,
        (New name version image container port services f₁ f₂ f₃ f₄ f₅
            vKc iKc cKc vKl iKl cKl).Kubeconfig utcNow vKc iKc cKc local_ =
          File.ofContainer
            (Utils.WithContainerVersion dagContainer vKc iKc cKc "alpine" ++ rest)
            "k3s.yaml") ∧
      (∃ rest : List Step,
        (New name version image container port services f₁ f₂ f₃ f₄ f₅
            vKc iKc cKc vKl iKl cKl).Kubectl utcNow vKc iKc cKc args =
          Step.From "bitnami/kubectl" :: rest)) ∧
    (∀ (utcNow : Time) (args : String),
      ((New "default" "" "" none 6443 [] false false false false false
          "" "" none "1.30" "" none).Kubectl utcNow "" "" none args).head? =
        some (Step.From "bitnami/kubectl") ∧
      Step.From "bitnami/kubectl" ≠ Step.From (defaultImageRepositoryKubectl ++ ":" ++ "1.30") ∧
      ((New "default" "" "" none 6443 [] false false false false false
          "" "" none "" "me/kubectl:dev" none).Kubectl utcNow "" "" none args).head? =
        some (Step.From "bitnami/kubectl") ∧
      Step.From "bitnami/kubectl" ≠ Step.From "me/kubectl:dev") := by
  constructor
  · intro name version image container port services f₁ f₂ f₃ f₄ f₅ vKc iKc cKc vKl iKl cKl
      utcNow local_ args
    refine ⟨rfl, ?_, ?_⟩
    · exact ⟨_, kubeconfig_steps _ utcNow vKc iKc cKc local_⟩
    · exact ⟨_, rfl⟩
  · intro utcNow args
    refine ⟨rfl, ?_, rfl, ?_⟩
    · simp only [ne_eq, Step.From.injEq]
      decide
    · simp only [ne_eq, Step.From.injEq]
      decide

/-! ## Kubeconfig: the copied file and its rewrite -/

theorem afterLastColon_of_not_mem (r : List Char) (h : ':' ∉ r) : afterLastColon r = none := by
  induction r with
  | nil => rfl
  | cons c cs ih =>
    simp only [List.mem_cons, not_or] at h
    have hc : c ≠ ':' := fun e => h.1 e.symm
    simp [afterLastColon, ih h.2, hc]

theorem afterLastColon_append_colon (b r : List Char) (h : ':' ∉ r) :
    afterLastColon (b ++ ':' :: r) = some r := by
  induction b with
  | nil => simp [afterLastColon, afterLastColon_of_not_mem r h]
  | cons c cs ih => simp [afterLastColon, ih]

theorem sedLine_at_match (b r : List Char) (h : ':' ∉ r) :
    sedLine ("https:".data ++ (b ++ ':' :: r)) = "https://localhost:".data ++ r := by
  have hd : ("https:".data ++ (b ++ ':' :: r)).drop 6 = b ++ ':' :: r := rfl
  have hp : "https:".data.isPrefixOf ("https:".data ++ (b ++ ':' :: r)) = true := by
    rw [List.isPrefixOf_iff_prefix]
    exact List.prefix_append _ _
  change sedLine ('h' :: ("ttps:".data ++ (b ++ ':' :: r))) = _
  rw [sedLine]
  change (if "https:".data.isPrefixOf ("https:".data ++ (b ++ ':' :: r)) = true then
      (match afterLastColon (("https:".data ++ (b ++ ':' :: r)).drop 6) with
        | some rest => "https://localhost:".data ++ rest
        | none => "https:".data ++ (b ++ ':' :: r))
      else 'h' :: sedLine ("ttps:".data ++ (b ++ ':' :: r))) = _
  rw [if_pos hp, hd, afterLastColon_append_colon b r h]

theorem sedLine_before_match (a t : List Char)
    (h : ∀ suffix ∈ (a ++ "https".data).tails, "https:".data.isPrefixOf suffix = false) :
    sedLine (a ++ ("https".data ++ t)) = a ++ sedLine ("https".data ++ t) := by
  induction a with
  | nil => rfl
  | cons c cs ih =>
    have hhead : "https:".data.isPrefixOf (c :: cs ++ "https".data) = false :=
      h _ (by simp)
    have hnp : ¬ "https:".data.isPrefixOf (c :: (cs ++ ("https".data ++ t))) = true := by
      intro hp
      rw [List.isPrefixOf_iff_prefix] at hp
      have hlen : "https:".data.length ≤ (c :: cs ++ "https".data).length := by
        simp only [List.length_append, List.length_cons]
        have : "https:".data.length = 6 := rfl
        have : "https".data.length = 5 := rfl
        omega
      have hpre : c :: cs ++ "https".data <+: c :: (cs ++ ("https".data ++ t)) := by
        have : c :: (cs ++ ("https".data ++ t)) = (c :: cs ++ "https".data) ++ t := by simp
        rw [this]
        exact List.prefix_append _ _
      have := List.prefix_of_prefix_length_le hp hpre hlen
      rw [← List.isPrefixOf_iff_prefix] at this
      rw [this] at hhead
      exact Bool.noConfusion hhead
    have htail : ∀ suffix ∈ (cs ++ "https".data).tails,
        "https:".data.isPrefixOf suffix = false := by
      intro suffix hs
      apply h
      simp only [List.cons_append, List.tails, List.mem_cons]
      exact Or.inr hs
    rw [List.cons_append, sedLine, if_neg hnp, ih htail]
    rfl

theorem splitLines_ne_nil (text : List Char) : splitLines text ≠ [] := by
  induction text with
  | nil => simp [splitLines]
  | cons c cs ih =>
    rw [splitLines]
    split_ifs
    · simp
    · cases hsplit : splitLines cs <;> simp

theorem splitLines_of_not_mem (text : List Char) (h : '\n' ∉ text) : splitLines text = [text] := by
  induction text with
  | nil => rfl
  | cons c cs ih =>
    simp only [List.mem_cons, not_or] at h
    have hc : c ≠ '\n' := fun e => h.1 e.symm
    rw [splitLines, if_neg hc, ih h.2]

theorem splitLines_append_newline (x y : List Char) :
    splitLines (x ++ '\n' :: y) = splitLines x ++ splitLines y := by
  induction x with
  | nil => simp [splitLines]
  | cons c cs ih =>
    rw [List.cons_append, splitLines, splitLines, ih]
    split_ifs
    · rfl
    · cases hsplit : splitLines cs with
      | nil => exact absurd hsplit (splitLines_ne_nil cs)
      | cons line lines => rfl

theorem intercalate_append_of_ne_nil (sep : List Char) (xs ys : List (List Char))
    (hx : xs ≠ []) (hy : ys ≠ []) :
    List.intercalate sep (xs ++ ys) =
      List.intercalate sep xs ++ sep ++ List.intercalate sep ys := by
  induction xs with
  | nil => exact absurd rfl hx
  | cons x rest ih =>
    cases rest with
    | nil =>
      cases ys with
      | nil => exact absurd rfl hy
      | cons y ys => simp [List.intercalate, List.intersperse]
    | cons x2 rest =>
      have hrest := ih (by simp)
      simp only [List.intercalate, List.cons_append, List.intersperse, List.flatten_cons,
        List.append_assoc] at hrest ⊢
      exact congrArg (fun l => x ++ (sep ++ l)) hrest

theorem sedFile_lines (x y : String) :
    sedFile (x ++ "\n" ++ y) = sedFile x ++ "\n" ++ sedFile y := by
  apply String.ext
  have hdata : (x ++ "\n" ++ y).data = x.data ++ '\n' :: y.data := by
    simp [String.data_append]
  simp only [sedFile, String.data_append, hdata, splitLines_append_newline, List.map_append]
  rw [intercalate_append_of_ne_nil _ _ _ (by simpa using splitLines_ne_nil x.data)
    (by simpa using splitLines_ne_nil y.data)]

theorem sedFile_line (a b r : String) (hfirst : occursIn "https:" (a ++ "https") = false)
    (hr : ':' ∉ r.data) (hnl : '\n' ∉ (a ++ "https:" ++ b ++ ":" ++ r).data) :
    sedFile (a ++ "https:" ++ b ++ ":" ++ r) = a ++ "https://localhost:" ++ r := by
  apply String.ext
  simp only [sedFile, splitLines_of_not_mem _ hnl, List.map, List.intercalate,
    List.intersperse, List.flatten_cons, List.flatten_nil, List.append_nil]
  have hdata : (a ++ "https:" ++ b ++ ":" ++ r).data =
      a.data ++ ("https".data ++ (':' :: (b.data ++ ':' :: r.data))) := by
    simp [String.data_append]
  rw [hdata]
  have hno : ∀ suffix ∈ (a.data ++ "https".data).tails,
      "https:".data.isPrefixOf suffix = false := by
    have hany := hfirst
    simp only [occursIn, String.data_append, List.any_eq_false] at hany
    intro suffix hs
    cases hb : "https:".data.isPrefixOf suffix with
    | false => rfl
    | true => exact absurd hb (hany suffix hs)
  rw [sedLine_before_match _ _ hno, String.data_append, String.data_append, List.append_assoc]
  exact congrArg (fun l => a.data ++ l) (sedLine_at_match b.data r.data hr)


theorem mount_cache_k3s_yaml (fs volume : Files) :
    (fs.mount "/cache/k3s" volume) "/cache/k3s/k3s.yaml" = volume "k3s.yaml" := by
  have hp : ("/cache/k3s" ++ "/").data.isPrefixOf "/cache/k3s/k3s.yaml".data = true := by decide
  have hd : String.mk ("/cache/k3s/k3s.yaml".data.drop ("/cache/k3s".length + 1)) = "k3s.yaml" := by
    decide
  simp only [Files.mount, hp, hd, if_true]

theorem runSteps_append (world : World) (base steps : List Step) (fs : Files) :
    runSteps world (base ++ steps) fs =
      (runSteps world base fs).bind fun fs₁ => runSteps world steps fs₁ := by
  induction base generalizing fs with
  | nil => simp [runSteps]
  | cons step rest ih =>
    simp only [List.cons_append, runSteps]
    cases Step.run world step fs with
    | none => rfl
    | some fs₁ => simpa using ih fs₁

theorem kubeconfig_contents (m : K3s) (utcNow : Time) (vKc iKc : String)
    (cKc : Option Container) (world : World) (fs₀ : Files) (content : String)
    (hbase : Container.run world
      (Utils.WithContainerVersion dagContainer vKc iKc cKc "alpine") = some fs₀)
    (hsrc : world.volumes m.ConfigCache "k3s.yaml" = some content) (local_ : Bool) :
    (m.Kubeconfig utcNow vKc iKc cKc local_).contents world =
      some (if local_ then sedFile content else content) := by
  rw [kubeconfig_steps]
  unfold Container.run at hbase
  simp only [File.contents]
  rw [runSteps_append, hbase]
  cases local_
  · simp [runSteps, Step.run, runExec, mount_cache_k3s_yaml, hsrc, Files.write]
  · simp [runSteps, Step.run, runExec, mount_cache_k3s_yaml, hsrc, Files.write]

/-- C9, the code at the failing input.  For every configuration the operations of
`Kubeconfig` end at the copy of `k3s.yaml` when `local = false` and are the same
operations followed by the one execution of
`sed -i s/https:.*:/https:\/\/localhost:/g k3s.yaml` when `local = true`.  For the
credentials file `server: https://10.0.0.5:6443 # set by: k3s`, which contains
`https://10.0.0.5:6443`, the file returned with `local = false` is the copied source
byte for byte, and the file returned with `local = true` is
`server: https://localhost: k3s`: the match of `https:.*:` runs to the last colon of the
line, the port is lost and `https://localhost:6443` does not occur in the result.  On a
file whose server line ends at the port the same call gives `https://localhost:6443` in
place of the address and keeps every other line, a line with `https:` and no later
colon included. -/
theorem C9_greedy_match_loses_port :
    (∀ (m : K3s) (utcNow : Time) (vKc iKc : String) (cKc : Option Container),
      ∃ before : List Step,
        m.Kubeconfig utcNow vKc iKc cKc false =
          File.ofContainer
            (before ++ [Step.WithExec ["cp", "/cache/k3s/k3s.yaml", "k3s.yaml"] false])
            "k3s.yaml" ∧
        m.Kubeconfig utcNow vKc iKc cKc true =
          File.ofContainer
            (before ++ [Step.WithExec ["cp", "/cache/k3s/k3s.yaml", "k3s.yaml"] false,
              Step.WithExec ["sed", "-i", "s/https:.*:/https:\\/\\/localhost:/g", "k3s.yaml"]
                false])
            "k3s.yaml") ∧
    occursIn "https://10.0.0.5:6443" "server: https://10.0.0.5:6443 # set by: k3s\n" = true ∧
    ((New "default" "" "" none 6443 [] false false false false false
        "" "" none "" "" none).Kubeconfig ⟨2025, 1, 1, 0, 0, 0⟩ "" "" none false).contents
        ⟨fun _ => Files.empty,
          fun _ => Files.empty.write "k3s.yaml"
            "server: https://10.0.0.5:6443 # set by: k3s\n",
          fun _ => none, fun _ _ => none⟩ =
      some "server: https://10.0.0.5:6443 # set by: k3s\n" ∧
    ((New "default" "" "" none 6443 [] false false false false false
        "" "" none "" "" none).Kubeconfig ⟨2025, 1, 1, 0, 0, 0⟩ "" "" none true).contents
        ⟨fun _ => Files.empty,
          fun _ => Files.empty.write "k3s.yaml"
            "server: https://10.0.0.5:6443 # set by: k3s\n",
          fun _ => none, fun _ _ => none⟩ =
      some "server: https://localhost: k3s\n" ∧
    occursIn "https://localhost:6443" "server: https://localhost: k3s\n" = false ∧
    ((New "default" "" "" none 6443 [] false false false false false
        "" "" none "" "" none).Kubeconfig ⟨2025, 1, 1, 0, 0, 0⟩ "" "" none true).contents
        ⟨fun _ => Files.empty,
          fun _ => Files.empty.write "k3s.yaml"
            "clusters:\n- see https:docs\n    server: https://10.0.0.5:6443\n  name: default\n",
          fun _ => none, fun _ _ => none⟩ =
      some "clusters:\n- see https:docs\n    server: https://localhost:6443\n  name: default\n" := by
  refine ⟨fun m utcNow vKc iKc cKc =>
    ⟨Utils.WithContainerVersion dagContainer vKc iKc cKc "alpine" ++
      [Step.WithEnvVariable "CACHE_BURSTER" (Utils.cacheBursterKey utcNow ""),
        Step.WithMountedCache "/cache/k3s" m.ConfigCache], ?_, ?_⟩, ?_⟩
  · rw [kubeconfig_steps]
    simp
  · rw [kubeconfig_steps]
    simp [K3s.sedScript]
  · decide

end Daggerverse
